import Mathlib

set_option maxHeartbeats 1000000
set_option maxRecDepth 20000

/-!
Verification of the patient-statistics aggregator
`calcular_estadisticas_pacientes` (src/1001010.py).

The Python function folds over a list of record dictionaries, filters them by
an inclusive admission-date range, groups them by disease category, and
optionally averages a caller-named numeric metric field per category.

Modelling decisions (shallow embedding):
* Python values occurring in records are modelled by the inductive `PyVal`
  (`None`, `str`, `int`, `float`, `datetime.date`).  Python `float`
  arithmetic is idealised as exact rational arithmetic (`ℚ`); the special
  values `inf`/`nan` and underscore digit separators of numeric literals are
  outside the model.
* Dictionaries are association lists with first-occurrence lookup.
* `datetime.datetime.strptime(s, "%Y-%m-%d")` is embedded by `tryParseDate`,
  following CPython's `_strptime` regexps: `%Y` is exactly four digits, `%m`
  is one or two digits valued 1..12, `%d` is one or two digits valued 1..31,
  the whole string must be consumed, and `datetime.date` construction then
  checks the day against the (leap-aware) month length and the year ≥ 1.
* `float(x)` is embedded by `tryCoerceFloat`; the `except (ValueError,
  TypeError)` around it and the `except ValueError` around `strptime` are
  modelled by `Option` results.
* The *uncaught* `TypeError` raised at line 44 of the source when the
  admission-date value is neither a date, a string nor `None` (Python
  refuses to order `datetime.date` against such values) is modelled by the
  `Except PyError` result of the aggregator.
-/

/-- A calendar date `(year, month, day)`, modelling `datetime.date`.
Order on valid dates is lexicographic, as in Python. -/
structure Fecha where
  anio : Nat
  mes : Nat
  dia : Nat
deriving DecidableEq

/-- Python `date.__le__` on the model: lexicographic comparison. -/
def Fecha.leB (a b : Fecha) : Bool :=
  if a.anio < b.anio then true
  else if b.anio < a.anio then false
  else if a.mes < b.mes then true
  else if b.mes < a.mes then false
  else decide (a.dia ≤ b.dia)

/-- The Python values that can occur in a patient record in this model. -/
inductive PyVal where
  | none
  | str (s : String)
  | int (n : Int)
  | float (q : ℚ)
  | date (d : Fecha)
deriving DecidableEq

/-- Python truthiness (`bool(v)`) on the modelled values. -/
def PyVal.truthy : PyVal → Bool
  | .none => false
  | .str s => !decide (s = "")
  | .int n => !decide (n = 0)
  | .float q => !decide (q = 0)
  | .date _ => true

/-- ASCII whitespace recognised by Python's `str.strip()` (the part of it
our string domain can contain). -/
def esEspacio (c : Char) : Bool :=
  decide (c = ' ') || decide (c = '\t') || decide (c = '\n') ||
  decide (c = '\r') || decide (c = '\x0b') || decide (c = '\x0c')

/-- Strip leading and trailing whitespace characters. -/
def recortar (cs : List Char) : List Char :=
  ((cs.dropWhile esEspacio).reverse.dropWhile esEspacio).reverse

/-- Split a character list at every separator recognised by `p`
(the separators are dropped; `n` separators yield `n + 1` groups). -/
def partirEnP (p : Char → Bool) : List Char → List (List Char)
  | [] => [[]]
  | c :: cs =>
    match partirEnP p cs with
    | [] => if p c then [[], []] else [[c]]
    | g :: gs => if p c then [] :: g :: gs else (c :: g) :: gs

/-- All characters are ASCII digits. -/
def sonDigitos (cs : List Char) : Bool := cs.all Char.isDigit

/-- Numeric value of a digit string (most significant digit first). -/
def valorDigitos (cs : List Char) : Nat :=
  cs.foldl (fun n c => n * 10 + (c.toNat - 48)) 0

/-- Gregorian leap-year test, as used by `datetime.date`. -/
def esBisiesto (y : Nat) : Bool :=
  if y % 4 = 0 then (if y % 100 = 0 then decide (y % 400 = 0) else true)
  else false

/-- Number of days in month `m` of year `y` (as validated by
`datetime.date`). -/
def diasEnMes (y m : Nat) : Nat :=
  if m = 2 then (if esBisiesto y then 29 else 28)
  else if m = 4 ∨ m = 6 ∨ m = 9 ∨ m = 11 then 30 else 31

/-- Embedding of `datetime.datetime.strptime(s, "%Y-%m-%d").date()` wrapped
in `try/except ValueError`: `some d` on success, `none` where Python raises
`ValueError`.  The string must be exactly `YYYY-M[M]-D[D]` (four-digit year,
one- or two-digit month and day) and denote a valid calendar date. -/
def tryParseDate (s : String) : Option Fecha :=
  match partirEnP (fun c => decide (c = '-')) s.data with
  | [ys, ms, ds] =>
    if ys.length = 4 ∧ sonDigitos ys = true ∧
       (ms.length = 1 ∨ ms.length = 2) ∧ sonDigitos ms = true ∧
       (ds.length = 1 ∨ ds.length = 2) ∧ sonDigitos ds = true then
      let y := valorDigitos ys
      let m := valorDigitos ms
      let d := valorDigitos ds
      if 1 ≤ y ∧ 1 ≤ m ∧ m ≤ 12 ∧ 1 ≤ d ∧ d ≤ diasEnMes y m then
        some ⟨y, m, d⟩
      else none
    else none
  | _ => none

/-- Strip one optional leading sign; returns (isNegative, rest). -/
def quitarSigno (cs : List Char) : Bool × List Char :=
  match cs with
  | [] => (false, [])
  | c :: rest =>
    if c = '-' then (true, rest)
    else if c = '+' then (false, cs.tail)
    else (false, cs)

/-- Exponent part of a float literal: optional sign, nonempty digits. -/
def parseExp (cs : List Char) : Option Int :=
  let sg := quitarSigno cs
  if sg.2 ≠ [] ∧ sonDigitos sg.2 = true then
    some (if sg.1 then -(valorDigitos sg.2 : Int) else (valorDigitos sg.2 : Int))
  else none

/-- Mantissa of a float literal: digits with at most one decimal point and
at least one digit overall. -/
def parseMantisa (cs : List Char) : Option ℚ :=
  match partirEnP (fun c => decide (c = '.')) cs with
  | [ent] =>
    if ent ≠ [] ∧ sonDigitos ent = true then some (valorDigitos ent) else none
  | [ent, fr] =>
    if (ent ≠ [] ∨ fr ≠ []) ∧ sonDigitos ent = true ∧ sonDigitos fr = true then
      some ((valorDigitos ent : ℚ) + (valorDigitos fr : ℚ) / (10 : ℚ) ^ fr.length)
    else none
  | _ => none

/-- Embedding of Python `float(s)` for strings on finite plain decimal
literals: optional surrounding whitespace, optional sign, digits with an
optional decimal point, optional `e`/`E` exponent.  `none` where Python
raises `ValueError` (and on `inf`/`nan`/underscored literals, which are
outside this model's value domain). -/
def parseFloatLit (s : String) : Option ℚ :=
  let cs := recortar s.data
  let sg := quitarSigno cs
  match partirEnP (fun c => decide (c = 'e') || decide (c = 'E')) sg.2 with
  | [mant] =>
    (parseMantisa mant).map (fun q => if sg.1 then -q else q)
  | [mant, ex] =>
    match parseMantisa mant, parseExp ex with
    | some q, some e => some ((if sg.1 then -q else q) * (10 : ℚ) ^ e)
    | _, _ => Option.none
  | _ => none

/-- Embedding of `float(v)` under the surrounding
`except (ValueError, TypeError)`: `some q` on success, `none` where Python
raises (`float(None)` and `float(date)` raise `TypeError`; unparseable
strings raise `ValueError`). -/
def tryCoerceFloat : PyVal → Option ℚ
  | .int n => some (n : ℚ)
  | .float q => some q
  | .str s => parseFloatLit s
  | .none => none
  | .date _ => none

/-- A patient record: a Python dict as an association list
(first occurrence of a key wins on lookup). -/
abbrev Registro := List (String × PyVal)

/-- First-match lookup in an association list (`dict.get` / `dict[k]`). -/
def buscarL {κ α : Type} [DecidableEq κ] : List (κ × α) → κ → Option α
  | [], _ => Option.none
  | p :: rest, k => if p.1 = k then some p.2 else buscarL rest k

/-- Update-or-append in an association list (`dict[k] = v`). -/
def ponerL {κ α : Type} [DecidableEq κ] : List (κ × α) → κ → α → List (κ × α)
  | [], k, v => [(k, v)]
  | p :: rest, k, v =>
    if p.1 = k then (k, v) :: rest else p :: ponerL rest k v

/-- `registro.get(k)`: the stored value, or `None` when the key is absent. -/
def RegGet (r : Registro) (k : String) : PyVal := (buscarL r k).getD PyVal.none

/-- `k in registro`. -/
def tieneClave (r : Registro) (k : String) : Bool := (buscarL r k).isSome

/-- The per-category accumulator `{"count": 0, "sum_metric": 0.0}`
(source line 31). -/
structure Acumulador where
  count : Nat
  sum_metric : ℚ
deriving DecidableEq

/-- The `resultados` defaultdict: category value (dict key) to accumulator. -/
abbrev AccMap := List (PyVal × Acumulador)

/-- `resultados[tipo]` including the defaultdict default. -/
def getAcc (m : AccMap) (k : PyVal) : Acumulador :=
  (buscarL m k).getD ⟨0, 0⟩

/-- One output entry: `{"cantidad": …}` plus `"promedio"` when the metric
was requested (`Option` models presence of the key). -/
structure Resumen where
  cantidad : Nat
  promedio : Option ℚ
deriving DecidableEq

/-- The only exception the source can leak for per-record data: the
`TypeError` of ordering `datetime.date` against a non-date (line 44). -/
inductive PyError where
  | typeError
deriving DecidableEq

/-- Truthiness of the `campo_metrica` argument (`if campo_metrica`):
`None` and the empty string are falsy. -/
def metricaSolicitada : Option String → Bool
  | Option.none => false
  | some c => !decide (c = "")

/-- Source lines 52–61: increment `resultados[tipo]["count"]`, and when the
metric is requested and present on the record, try to coerce it and add it
to `resultados[tipo]["sum_metric"]` (coercion failure is swallowed). -/
def acumular (cm : Option String) (m : AccMap) (r : Registro) (tipo : PyVal) :
    AccMap :=
  let m1 := ponerL m tipo
    { getAcc m tipo with count := (getAcc m tipo).count + 1 }
  match cm with
  | Option.none => m1
  | some c =>
    if c = "" then m1
    else if tieneClave r c then
      match tryCoerceFloat (RegGet r c) with
      | some v =>
        ponerL m1 tipo
          { getAcc m1 tipo with
              sum_metric := (getAcc m1 tipo).sum_metric + v }
      | Option.none => m1
    else m1

/-- Source lines 44–61, after date normalisation: range filter, category
truthiness filter, then accumulation. -/
def procesarFechaValida (fi ff : Fecha) (cm : Option String) (m : AccMap)
    (r : Registro) (d : Fecha) : AccMap :=
  if Fecha.leB fi d && Fecha.leB d ff then
    let tipo := RegGet r "tipoEnfermedad"
    if tipo.truthy then acumular cm m r tipo else m
  else m

/-- Source lines 33–61, one loop iteration.  A `str` date is parsed
(`ValueError` skips the record), `None` is skipped by the `is None` test,
a `date` passes through, and any other value reaches the chained
comparison at line 44, which raises an uncaught `TypeError`. -/
def procesarRegistro (fi ff : Fecha) (cm : Option String) (m : AccMap)
    (r : Registro) : Except PyError AccMap :=
  match RegGet r "fechaIngreso" with
  | PyVal.str s =>
    match tryParseDate s with
    | Option.none => Except.ok m
    | some d => Except.ok (procesarFechaValida fi ff cm m r d)
  | PyVal.date d => Except.ok (procesarFechaValida fi ff cm m r d)
  | PyVal.none => Except.ok m
  | PyVal.int _ => Except.error PyError.typeError
  | PyVal.float _ => Except.error PyError.typeError

/-- The `for registro in registros` loop. -/
def bucle (fi ff : Fecha) (cm : Option String) :
    List Registro → AccMap → Except PyError AccMap
  | [], m => Except.ok m
  | r :: rs, m =>
    match procesarRegistro fi ff cm m r with
    | Except.error e => Except.error e
    | Except.ok m' => bucle fi ff cm rs m'

/-- Source lines 63–70: build the final statistics dict; the average is
`sum_metric / count` when `count > 0` and `0.0` otherwise, emitted only
when the metric was requested. -/
def finalizar (cm : Option String) (m : AccMap) : List (PyVal × Resumen) :=
  m.map (fun p =>
    (p.1,
      { cantidad := p.2.count
        promedio :=
          if metricaSolicitada cm then
            some (if 0 < p.2.count then p.2.sum_metric / (p.2.count : ℚ) else 0)
          else Option.none }))

/-- Embedding of `calcular_estadisticas_pacientes` (src/1001010.py,
lines 5–72). -/
def calcular_estadisticas_pacientes (registros : List Registro)
    (fecha_inicio fecha_fin : Fecha) (campo_metrica : Option String) :
    Except PyError (List (PyVal × Resumen)) :=
  match bucle fecha_inicio fecha_fin campo_metrica registros [] with
  | Except.error e => Except.error e
  | Except.ok m => Except.ok (finalizar campo_metrica m)

/-- A record whose `"fechaIngreso"` value makes the source raise the
uncaught `TypeError` at line 44. -/
def registroMalo (r : Registro) : Bool :=
  match RegGet r "fechaIngreso" with
  | PyVal.int _ => true
  | PyVal.float _ => true
  | _ => false

/-! ### Specification-side record classification

These definitions restate, per record, which records the spec says are
counted and what they contribute to the metric sum; the bridge lemmas below
prove the aggregator refines them. -/

/-- The admission date a record denotes, if any: a `date` value as-is, a
string via `YYYY-MM-DD` parsing, anything else none. -/
def fechaNormalizada (r : Registro) : Option Fecha :=
  match RegGet r "fechaIngreso" with
  | PyVal.date d => some d
  | PyVal.str s => tryParseDate s
  | _ => Option.none

/-- The record is counted into category `k`: its admission date is in
the inclusive range and its category field is truthy and equal to `k`. -/
def contadoB (fi ff : Fecha) (k : PyVal) (r : Registro) : Bool :=
  match fechaNormalizada r with
  | some d =>
    Fecha.leB fi d && Fecha.leB d ff &&
    (RegGet r "tipoEnfermedad").truthy &&
    decide (RegGet r "tipoEnfermedad" = k)
  | Option.none => false

/-- The record's contribution to its category's metric sum: the coerced
value of the requested field when present and coercible, else `0`. -/
def contribucion (cm : Option String) (r : Registro) : ℚ :=
  match cm with
  | Option.none => 0
  | some c =>
    if c = "" then 0
    else if tieneClave r c then (tryCoerceFloat (RegGet r c)).getD 0
    else 0

/-- Number of records of `rs` counted into category `k`. -/
def cuentaSpec (fi ff : Fecha) (k : PyVal) (rs : List Registro) : Nat :=
  (rs.filter (contadoB fi ff k)).length

/-- Metric sum over the records of `rs` counted into category `k`. -/
def sumaSpec (fi ff : Fecha) (cm : Option String) (k : PyVal)
    (rs : List Registro) : ℚ :=
  ((rs.filter (contadoB fi ff k)).map (contribucion cm)).sum

/-- The output entry the spec predicts for category `k`: absent when no
record is counted, else the full count and (when the metric is requested)
`sum / count`. -/
def resumenEsperado (fi ff : Fecha) (cm : Option String) (k : PyVal)
    (rs : List Registro) : Option Resumen :=
  if cuentaSpec fi ff k rs = 0 then Option.none
  else some
    { cantidad := cuentaSpec fi ff k rs
      promedio :=
        if metricaSolicitada cm then
          some (sumaSpec fi ff cm k rs / (cuentaSpec fi ff k rs : ℚ))
        else Option.none }

/-- Start of the date range used by the concrete examples. -/
def fIni : Fecha := ⟨2025, 1, 1⟩

/-- End of the date range used by the concrete examples. -/
def fFin : Fecha := ⟨2025, 12, 31⟩

/-- A patient record with the given admission date, disease type, and metric
value under the key `"valor"`. -/
def regPaciente (d : Fecha) (tipo : String) (v : PyVal) : Registro :=
  [("fechaIngreso", PyVal.date d), ("tipoEnfermedad", PyVal.str tipo),
   ("valor", v)]

/-- The spec's average example: categories A (metric 5 and 6) and
B (metric 9). -/
def ejemploPromedio : List Registro :=
  [regPaciente ⟨2025, 1, 10⟩ "A" (PyVal.int 5),
   regPaciente ⟨2025, 1, 15⟩ "A" (PyVal.int 6),
   regPaciente ⟨2025, 1, 20⟩ "B" (PyVal.int 9)]

/-- The spec's non-numeric-metric example: category A with records
valid=5 and invalid="N/A". -/
def ejemploNoNumerico : List Registro :=
  [regPaciente ⟨2025, 1, 10⟩ "A" (PyVal.int 5),
   regPaciente ⟨2025, 1, 15⟩ "A" (PyVal.str "N/A")]

example : tryParseDate "2025-01-10" = some ⟨2025, 1, 10⟩ := by decide
example : tryParseDate "not-a-date" = Option.none := by decide
example : tryParseDate "2025-02-30" = Option.none := by decide
example : tryCoerceFloat (PyVal.str "N/A") = Option.none := by decide
example :
    calcular_estadisticas_pacientes
      [[("fechaIngreso", PyVal.date ⟨2025, 1, 10⟩),
        ("tipoEnfermedad", PyVal.str "VIH"),
        ("m", PyVal.int 5)]]
      ⟨2025, 1, 1⟩ ⟨2025, 12, 31⟩ (some "m") =
    Except.ok [(PyVal.str "VIH", ⟨1, some 5⟩)] := by
  simp [calcular_estadisticas_pacientes, bucle, procesarRegistro,
    procesarFechaValida, acumular, getAcc, buscarL, ponerL, RegGet, tieneClave,
    tryCoerceFloat, finalizar, metricaSolicitada, PyVal.truthy, Fecha.leB]

/-! ### Association-list lemmas -/

theorem buscarL_ponerL_self {κ α : Type} [DecidableEq κ]
    (l : List (κ × α)) (k : κ) (v : α) :
    buscarL (ponerL l k v) k = some v := by
  induction l with
  | nil => simp [ponerL, buscarL]
  | cons p rest ih =>
    by_cases h : p.1 = k
    · simp [ponerL, buscarL, h]
    · simp [ponerL, buscarL, h, ih]

theorem buscarL_ponerL_ne {κ α : Type} [DecidableEq κ]
    (l : List (κ × α)) (k k' : κ) (v : α) (h : k' ≠ k) :
    buscarL (ponerL l k v) k' = buscarL l k' := by
  induction l with
  | nil => simp [ponerL, buscarL, Ne.symm h]
  | cons p rest ih =>
    by_cases hp : p.1 = k
    · simp [ponerL, buscarL, hp, Ne.symm h]
    · simp [ponerL, buscarL, hp, ih]

theorem getAcc_ponerL_self (m : AccMap) (k : PyVal) (a : Acumulador) :
    getAcc (ponerL m k a) k = a := by
  simp [getAcc, buscarL_ponerL_self]

theorem getAcc_ponerL_ne (m : AccMap) (k k' : PyVal) (a : Acumulador)
    (h : k' ≠ k) : getAcc (ponerL m k a) k' = getAcc m k' := by
  simp [getAcc, buscarL_ponerL_ne _ _ _ _ h]

/-! ### Characterisation of one accumulation step -/

theorem getAcc_acumular_self (cm : Option String) (m : AccMap) (r : Registro)
    (tipo : PyVal) :
    getAcc (acumular cm m r tipo) tipo =
      ⟨(getAcc m tipo).count + 1,
       (getAcc m tipo).sum_metric + contribucion cm r⟩ := by
  unfold acumular contribucion
  cases cm with
  | none => simp [getAcc_ponerL_self]
  | some c =>
    by_cases hc : c = ""
    · simp [hc, getAcc_ponerL_self]
    · by_cases hk : tieneClave r c = true
      · cases hv : tryCoerceFloat (RegGet r c) with
        | none => simp [hc, hk, hv, getAcc_ponerL_self]
        | some v => simp [hc, hk, hv, getAcc_ponerL_self]
      · simp [hc, hk, getAcc_ponerL_self]

theorem getAcc_acumular_ne (cm : Option String) (m : AccMap) (r : Registro)
    (tipo k : PyVal) (h : k ≠ tipo) :
    getAcc (acumular cm m r tipo) k = getAcc m k := by
  unfold acumular
  cases cm with
  | none => simp [getAcc_ponerL_ne _ _ _ _ h]
  | some c =>
    by_cases hc : c = ""
    · simp [hc, getAcc_ponerL_ne _ _ _ _ h]
    · by_cases hk : tieneClave r c = true
      · cases hv : tryCoerceFloat (RegGet r c) with
        | none => simp [hc, hk, hv, getAcc_ponerL_ne _ _ _ _ h]
        | some v => simp [hc, hk, hv, getAcc_ponerL_ne _ _ _ _ h]
      · simp [hc, hk, getAcc_ponerL_ne _ _ _ _ h]

theorem buscarL_acumular_self (cm : Option String) (m : AccMap) (r : Registro)
    (tipo : PyVal) :
    (buscarL (acumular cm m r tipo) tipo).isSome = true := by
  unfold acumular
  cases cm with
  | none => simp [buscarL_ponerL_self]
  | some c =>
    by_cases hc : c = ""
    · simp [hc, buscarL_ponerL_self]
    · by_cases hk : tieneClave r c = true
      · cases hv : tryCoerceFloat (RegGet r c) with
        | none => simp [hc, hk, hv, buscarL_ponerL_self]
        | some v => simp [hc, hk, hv, buscarL_ponerL_self]
      · simp [hc, hk, buscarL_ponerL_self]

theorem buscarL_acumular_ne (cm : Option String) (m : AccMap) (r : Registro)
    (tipo k : PyVal) (h : k ≠ tipo) :
    buscarL (acumular cm m r tipo) k = buscarL m k := by
  unfold acumular
  cases cm with
  | none => simp [buscarL_ponerL_ne _ _ _ _ h]
  | some c =>
    by_cases hc : c = ""
    · simp [hc, buscarL_ponerL_ne _ _ _ _ h]
    · by_cases hk : tieneClave r c = true
      · cases hv : tryCoerceFloat (RegGet r c) with
        | none => simp [hc, hk, hv, buscarL_ponerL_ne _ _ _ _ h]
        | some v => simp [hc, hk, hv, buscarL_ponerL_ne _ _ _ _ h]
      · simp [hc, hk, buscarL_ponerL_ne _ _ _ _ h]

/-- Characterisation of `procesarFechaValida` for a record whose
admission-date value denotes `d`. -/
theorem pasoFecha (fi ff : Fecha) (cm : Option String) (m : AccMap)
    (r : Registro) (d : Fecha) (hd : fechaNormalizada r = some d) (k : PyVal) :
    getAcc (procesarFechaValida fi ff cm m r d) k =
      ⟨(getAcc m k).count + (if contadoB fi ff k r then 1 else 0),
       (getAcc m k).sum_metric +
         (if contadoB fi ff k r then contribucion cm r else 0)⟩ ∧
    (buscarL (procesarFechaValida fi ff cm m r d) k).isSome =
      ((buscarL m k).isSome || contadoB fi ff k r) := by
  unfold procesarFechaValida
  by_cases hR : (Fecha.leB fi d && Fecha.leB d ff) = true
  · by_cases hT : (RegGet r "tipoEnfermedad").truthy = true
    · by_cases hK : RegGet r "tipoEnfermedad" = k
      · subst hK
        have hct : contadoB fi ff (RegGet r "tipoEnfermedad") r = true := by
          simp [contadoB, hd, hR, hT]
        constructor
        · simp [hR, hT, hct, getAcc_acumular_self]
        · simp [hR, hT, hct, buscarL_acumular_self]
      · have hck : contadoB fi ff k r = false := by
          simp [contadoB, hd, hK]
        constructor
        · simp [hR, hT, hck, getAcc_acumular_ne _ _ _ _ _ (fun h => hK h.symm)]
        · simp [hR, hT, hck, buscarL_acumular_ne _ _ _ _ _ (fun h => hK h.symm)]
    · have hck : contadoB fi ff k r = false := by
        simp [contadoB, hd, Bool.eq_false_iff.mpr hT]
      simp [hR, hT, hck]
  · have hck : contadoB fi ff k r = false := by
      simp only [contadoB, hd]
      cases h1 : Fecha.leB fi d <;> cases h2 : Fecha.leB d ff <;> simp_all
    simp [hR, hck]

/-- Characterisation of one full loop iteration that did not raise. -/
theorem paso_ok (fi ff : Fecha) (cm : Option String) (m : AccMap)
    (r : Registro) (m' : AccMap)
    (h : procesarRegistro fi ff cm m r = Except.ok m') (k : PyVal) :
    getAcc m' k =
      ⟨(getAcc m k).count + (if contadoB fi ff k r then 1 else 0),
       (getAcc m k).sum_metric +
         (if contadoB fi ff k r then contribucion cm r else 0)⟩ ∧
    (buscarL m' k).isSome = ((buscarL m k).isSome || contadoB fi ff k r) := by
  cases hF : RegGet r "fechaIngreso" with
  | str s =>
    cases hP : tryParseDate s with
    | none =>
      have hm : m = m' := by simpa [procesarRegistro, hF, hP] using h
      have hck : contadoB fi ff k r = false := by
        simp [contadoB, fechaNormalizada, hF, hP]
      subst hm; simp [hck]
    | some d =>
      have hm : procesarFechaValida fi ff cm m r d = m' := by
        simpa [procesarRegistro, hF, hP] using h
      subst hm
      exact pasoFecha fi ff cm m r d (by simp [fechaNormalizada, hF, hP]) k
  | date d =>
    have hm : procesarFechaValida fi ff cm m r d = m' := by
      simpa [procesarRegistro, hF] using h
    subst hm
    exact pasoFecha fi ff cm m r d (by simp [fechaNormalizada, hF]) k
  | none =>
    have hm : m = m' := by simpa [procesarRegistro, hF] using h
    have hck : contadoB fi ff k r = false := by
      simp [contadoB, fechaNormalizada, hF]
    subst hm; simp [hck]
  | int n => simp [procesarRegistro, hF] at h
  | float q => simp [procesarRegistro, hF] at h

/-! ### Counting lemmas for the specification-side functions -/

theorem cuentaSpec_cons (fi ff : Fecha) (k : PyVal) (r : Registro)
    (rs : List Registro) :
    cuentaSpec fi ff k (r :: rs) =
      (if contadoB fi ff k r then 1 else 0) + cuentaSpec fi ff k rs := by
  cases h : contadoB fi ff k r <;>
    simp [cuentaSpec, List.filter_cons, h, Nat.add_comm]

theorem sumaSpec_cons (fi ff : Fecha) (cm : Option String) (k : PyVal)
    (r : Registro) (rs : List Registro) :
    sumaSpec fi ff cm k (r :: rs) =
      (if contadoB fi ff k r then contribucion cm r else 0) +
        sumaSpec fi ff cm k rs := by
  cases h : contadoB fi ff k r <;> simp [sumaSpec, List.filter_cons, h]

theorem cuentaSpec_append (fi ff : Fecha) (k : PyVal) (l1 l2 : List Registro) :
    cuentaSpec fi ff k (l1 ++ l2) =
      cuentaSpec fi ff k l1 + cuentaSpec fi ff k l2 := by
  simp [cuentaSpec, List.filter_append]

theorem sumaSpec_append (fi ff : Fecha) (cm : Option String) (k : PyVal)
    (l1 l2 : List Registro) :
    sumaSpec fi ff cm k (l1 ++ l2) =
      sumaSpec fi ff cm k l1 + sumaSpec fi ff cm k l2 := by
  simp [sumaSpec, List.filter_append]

/-! ### Characterisation of the whole loop -/

theorem bucle_getAcc (fi ff : Fecha) (cm : Option String)
    (rs : List Registro) : ∀ (m mf : AccMap),
    bucle fi ff cm rs m = Except.ok mf → ∀ k,
    getAcc mf k =
      ⟨(getAcc m k).count + cuentaSpec fi ff k rs,
       (getAcc m k).sum_metric + sumaSpec fi ff cm k rs⟩ ∧
    (buscarL mf k).isSome =
      ((buscarL m k).isSome || decide (cuentaSpec fi ff k rs ≠ 0)) := by
  induction rs with
  | nil =>
    intro m mf h k
    have hm : m = mf := by simpa [bucle] using h
    subst hm
    simp [cuentaSpec, sumaSpec]
  | cons r rs ih =>
    intro m mf h k
    rw [bucle] at h
    cases hp : procesarRegistro fi ff cm m r with
    | error e => rw [hp] at h; simp at h
    | ok m1 =>
      rw [hp] at h
      obtain ⟨hg, hs⟩ := ih m1 mf h k
      obtain ⟨pg, ps⟩ := paso_ok fi ff cm m r m1 hp k
      refine ⟨?_, ?_⟩
      · rw [hg, pg, cuentaSpec_cons, sumaSpec_cons]
        simp [Nat.add_assoc, add_assoc]
      · rw [hs, ps, cuentaSpec_cons]
        cases hc : contadoB fi ff k r <;> simp [hc]

theorem bucle_append (fi ff : Fecha) (cm : Option String)
    (l1 l2 : List Registro) : ∀ m,
    bucle fi ff cm (l1 ++ l2) m =
      Except.bind (bucle fi ff cm l1 m) (fun m1 => bucle fi ff cm l2 m1) := by
  induction l1 with
  | nil => intro m; simp [bucle, Except.bind]
  | cons r rs ih =>
    intro m
    simp only [List.cons_append, bucle]
    cases hp : procesarRegistro fi ff cm m r with
    | error e => simp [Except.bind]
    | ok m1 => simpa using ih m1

theorem procesar_ok_of (fi ff : Fecha) (cm : Option String) (m : AccMap)
    (r : Registro) (h : registroMalo r = false) :
    ∃ m', procesarRegistro fi ff cm m r = Except.ok m' := by
  cases hF : RegGet r "fechaIngreso" with
  | str s =>
    cases hP : tryParseDate s with
    | none => exact ⟨m, by simp [procesarRegistro, hF, hP]⟩
    | some d =>
      exact ⟨procesarFechaValida fi ff cm m r d, by
        simp [procesarRegistro, hF, hP]⟩
  | date d =>
    exact ⟨procesarFechaValida fi ff cm m r d, by simp [procesarRegistro, hF]⟩
  | none => exact ⟨m, by simp [procesarRegistro, hF]⟩
  | int n => simp [registroMalo, hF] at h
  | float q => simp [registroMalo, hF] at h

theorem procesar_error_of (fi ff : Fecha) (cm : Option String) (m : AccMap)
    (r : Registro) (h : registroMalo r = true) :
    procesarRegistro fi ff cm m r = Except.error PyError.typeError := by
  cases hF : RegGet r "fechaIngreso" <;> simp [registroMalo, hF] at h <;>
    simp [procesarRegistro, hF]

theorem bucle_ok_of (fi ff : Fecha) (cm : Option String) (rs : List Registro)
    (h : ∀ r ∈ rs, registroMalo r = false) : ∀ m,
    ∃ mf, bucle fi ff cm rs m = Except.ok mf := by
  induction rs with
  | nil => intro m; exact ⟨m, rfl⟩
  | cons r rs ih =>
    intro m
    obtain ⟨m1, hm1⟩ := procesar_ok_of fi ff cm m r (h r (by simp))
    obtain ⟨mf, hmf⟩ := ih (fun r' hr' => h r' (by simp [hr'])) m1
    exact ⟨mf, by simp [bucle, hm1, hmf]⟩

theorem bucle_error_of (fi ff : Fecha) (cm : Option String) (r : Registro)
    (hb : registroMalo r = true) : ∀ (rs : List Registro), r ∈ rs → ∀ m,
    bucle fi ff cm rs m = Except.error PyError.typeError := by
  intro rs
  induction rs with
  | nil => intro h; cases h
  | cons a rs ih =>
    intro hr m
    rcases List.mem_cons.mp hr with h1 | h2
    · subst h1
      simp [bucle, procesar_error_of fi ff cm m r hb]
    · cases hp : procesarRegistro fi ff cm m a with
      | error e => cases e; simp [bucle, hp]
      | ok m1 => simp [bucle, hp, ih h2 m1]

theorem finalizar_cons (cm : Option String) (p : PyVal × Acumulador)
    (m : AccMap) :
    finalizar cm (p :: m) =
      (p.1,
        ⟨p.2.count,
         if metricaSolicitada cm then
           some (if 0 < p.2.count then p.2.sum_metric / (p.2.count : ℚ) else 0)
         else Option.none⟩) :: finalizar cm m := rfl

theorem buscarL_finalizar (cm : Option String) (m : AccMap) (k : PyVal) :
    buscarL (finalizar cm m) k =
      (buscarL m k).map (fun a =>
        ⟨a.count,
         if metricaSolicitada cm then
           some (if 0 < a.count then a.sum_metric / (a.count : ℚ) else 0)
         else Option.none⟩) := by
  induction m with
  | nil => simp [finalizar, buscarL]
  | cons p rest ih =>
    by_cases h : p.1 = k
    · simp [finalizar, buscarL, h]
    · simp only [finalizar, List.map_cons] at ih ⊢
      simp [buscarL, h, ih]

/-- Master refinement lemma: on a normal return, looking a category up in
the aggregator's output gives exactly the entry the specification-side
functions predict. -/
theorem buscar_calcular (regs : List Registro) (fi ff : Fecha)
    (cm : Option String) (res : List (PyVal × Resumen))
    (h : calcular_estadisticas_pacientes regs fi ff cm = Except.ok res)
    (k : PyVal) : buscarL res k = resumenEsperado fi ff cm k regs := by
  unfold calcular_estadisticas_pacientes at h
  cases hb : bucle fi ff cm regs [] with
  | error e => rw [hb] at h; simp at h
  | ok mf =>
    rw [hb] at h
    have hres : finalizar cm mf = res := by simpa using h
    subst hres
    obtain ⟨hg, hs⟩ := bucle_getAcc fi ff cm regs [] mf hb k
    rw [buscarL_finalizar]
    by_cases h0 : cuentaSpec fi ff k regs = 0
    · have hnone : (buscarL mf k).isSome = false := by simp [hs, buscarL, h0]
      cases hm : buscarL mf k with
      | none => simp [resumenEsperado, h0]
      | some a => rw [hm] at hnone; simp at hnone
    · have hsome : (buscarL mf k).isSome = true := by simp [hs, buscarL, h0]
      cases hm : buscarL mf k with
      | none => rw [hm] at hsome; simp at hsome
      | some a =>
        have ha : getAcc mf k = a := by simp [getAcc, hm]
        rw [ha] at hg
        have ha2 : a = ⟨cuentaSpec fi ff k regs, sumaSpec fi ff cm k regs⟩ := by
          rw [hg]; simp [getAcc, buscarL]
        subst ha2
        simp [resumenEsperado, h0, Nat.pos_of_ne_zero h0]

/-! ### Whole-call helper lemmas -/

theorem calcular_ok_of (regs : List Registro) (fi ff : Fecha)
    (cm : Option String) (h : ∀ r ∈ regs, registroMalo r = false) :
    ∃ res, calcular_estadisticas_pacientes regs fi ff cm = Except.ok res := by
  obtain ⟨mf, hmf⟩ := bucle_ok_of fi ff cm regs h []
  exact ⟨finalizar cm mf, by simp [calcular_estadisticas_pacientes, hmf]⟩

theorem calcular_error_of (regs : List Registro) (fi ff : Fecha)
    (cm : Option String) (r : Registro) (hr : r ∈ regs)
    (hb : registroMalo r = true) :
    calcular_estadisticas_pacientes regs fi ff cm =
      Except.error PyError.typeError := by
  simp [calcular_estadisticas_pacientes,
    bucle_error_of fi ff cm r hb regs hr []]

theorem calcular_quitar (fi ff : Fecha) (cm : Option String) (r : Registro)
    (h : ∀ m, procesarRegistro fi ff cm m r = Except.ok m)
    (rs1 rs2 : List Registro) :
    calcular_estadisticas_pacientes (rs1 ++ r :: rs2) fi ff cm =
      calcular_estadisticas_pacientes (rs1 ++ rs2) fi ff cm := by
  unfold calcular_estadisticas_pacientes
  rw [bucle_append fi ff cm rs1 (r :: rs2) [], bucle_append fi ff cm rs1 rs2 []]
  cases hb : bucle fi ff cm rs1 [] with
  | error e => simp [Except.bind]
  | ok m1 => simp [Except.bind, bucle, h m1]

theorem calcular_congr (fi ff : Fecha) (cm : Option String) (r r' : Registro)
    (h : ∀ m, procesarRegistro fi ff cm m r = procesarRegistro fi ff cm m r')
    (rs1 rs2 : List Registro) :
    calcular_estadisticas_pacientes (rs1 ++ r :: rs2) fi ff cm =
      calcular_estadisticas_pacientes (rs1 ++ r' :: rs2) fi ff cm := by
  unfold calcular_estadisticas_pacientes
  rw [bucle_append fi ff cm rs1 (r :: rs2) [],
    bucle_append fi ff cm rs1 (r' :: rs2) []]
  cases hb : bucle fi ff cm rs1 [] with
  | error e => simp [Except.bind]
  | ok m1 => simp only [Except.bind, bucle, h m1]

theorem Fecha.leB_refl (a : Fecha) : Fecha.leB a a = true := by
  simp [Fecha.leB]

/-! ### Per-record skip lemmas -/

theorem procesar_skip_fechaNone (fi ff : Fecha) (cm : Option String)
    (m : AccMap) (r : Registro) (h : RegGet r "fechaIngreso" = PyVal.none) :
    procesarRegistro fi ff cm m r = Except.ok m := by
  simp [procesarRegistro, h]

theorem procesar_skip_parse (fi ff : Fecha) (cm : Option String) (m : AccMap)
    (r : Registro) (s : String) (h1 : RegGet r "fechaIngreso" = PyVal.str s)
    (h2 : tryParseDate s = Option.none) :
    procesarRegistro fi ff cm m r = Except.ok m := by
  simp [procesarRegistro, h1, h2]

theorem procesar_skip_rango (fi ff : Fecha) (cm : Option String) (m : AccMap)
    (r : Registro) (d : Fecha) (hd : fechaNormalizada r = some d)
    (hr : (Fecha.leB fi d && Fecha.leB d ff) = false) :
    procesarRegistro fi ff cm m r = Except.ok m := by
  cases hF : RegGet r "fechaIngreso" with
  | str s =>
    simp only [fechaNormalizada, hF] at hd
    simp [procesarRegistro, hF, hd, procesarFechaValida, hr]
  | date d' =>
    simp only [fechaNormalizada, hF, Option.some.injEq] at hd
    subst hd
    simp [procesarRegistro, hF, procesarFechaValida, hr]
  | none => simp [fechaNormalizada, hF] at hd
  | int n => simp [fechaNormalizada, hF] at hd
  | float q => simp [fechaNormalizada, hF] at hd

theorem procesar_skip_tipo (fi ff : Fecha) (cm : Option String) (m : AccMap)
    (r : Registro) (hb : registroMalo r = false)
    (ht : (RegGet r "tipoEnfermedad").truthy = false) :
    procesarRegistro fi ff cm m r = Except.ok m := by
  cases hF : RegGet r "fechaIngreso" with
  | str s =>
    cases hP : tryParseDate s with
    | none => simp [procesarRegistro, hF, hP]
    | some d => simp [procesarRegistro, hF, hP, procesarFechaValida, ht]
  | date d => simp [procesarRegistro, hF, procesarFechaValida, ht]
  | none => simp [procesarRegistro, hF]
  | int n => simp [registroMalo, hF] at hb
  | float q => simp [registroMalo, hF] at hb

/-! ### Structure of split strings (for the date-string/float interplay) -/

theorem partirEnP_ne_nil (p : Char → Bool) : ∀ cs, partirEnP p cs ≠ [] := by
  intro cs
  cases cs with
  | nil => simp [partirEnP]
  | cons c cs' =>
    simp only [partirEnP]
    cases h : partirEnP p cs' with
    | nil => cases hp : p c <;> simp
    | cons g gs => cases hp : p c <;> simp

theorem partirEnP_uno (p : Char → Bool) : ∀ (cs a : List Char),
    partirEnP p cs = [a] → cs = a := by
  intro cs
  induction cs with
  | nil =>
    intro a h
    simp [partirEnP] at h
    exact h.symm
  | cons c cs' ih =>
    intro a h
    simp only [partirEnP] at h
    cases hsp : partirEnP p cs' with
    | nil => exact absurd hsp (partirEnP_ne_nil p cs')
    | cons g gs =>
      rw [hsp] at h
      cases hp : p c with
      | true => rw [hp, if_pos rfl] at h; simp at h
      | false =>
        rw [hp, if_neg (by simp)] at h
        injection h with h1 h2
        subst h1
        rw [h2] at hsp
        rw [ih g hsp]

theorem partirEnP_dos (sep : Char) : ∀ (cs a b : List Char),
    partirEnP (fun c => decide (c = sep)) cs = [a, b] →
    cs = a ++ sep :: b := by
  intro cs
  induction cs with
  | nil => intro a b h; simp [partirEnP] at h
  | cons c cs' ih =>
    intro a b h
    simp only [partirEnP] at h
    cases hsp : partirEnP (fun c => decide (c = sep)) cs' with
    | nil => exact absurd hsp (partirEnP_ne_nil _ cs')
    | cons g gs =>
      rw [hsp] at h
      have h' : (if decide (c = sep) = true then [] :: g :: gs
          else (c :: g) :: gs) = [a, b] := h
      by_cases hp : c = sep
      · rw [if_pos (decide_eq_true hp)] at h'
        injection h' with h1 h23
        injection h23 with h2 h3
        subst h1; subst h2
        rw [h3] at hsp
        rw [partirEnP_uno _ cs' g hsp, hp]
        rfl
      · rw [if_neg (by simp [hp])] at h'
        injection h' with h1 h23
        subst h1
        rw [h23] at hsp
        rw [List.cons_append, ih g b hsp]

theorem partirEnP_tres (sep : Char) : ∀ (cs a b c : List Char),
    partirEnP (fun x => decide (x = sep)) cs = [a, b, c] →
    cs = a ++ sep :: (b ++ sep :: c) := by
  intro cs
  induction cs with
  | nil => intro a b c h; simp [partirEnP] at h
  | cons x cs' ih =>
    intro a b c h
    simp only [partirEnP] at h
    cases hsp : partirEnP (fun x => decide (x = sep)) cs' with
    | nil => exact absurd hsp (partirEnP_ne_nil _ cs')
    | cons g gs =>
      rw [hsp] at h
      have h' : (if decide (x = sep) = true then [] :: g :: gs
          else (x :: g) :: gs) = [a, b, c] := h
      by_cases hp : x = sep
      · rw [if_pos (decide_eq_true hp)] at h'
        injection h' with h1 h23
        injection h23 with h2 h3
        subst h1; subst h2
        rw [h3] at hsp
        rw [partirEnP_dos sep cs' g c hsp, hp]
        rfl
      · rw [if_neg (by simp [hp])] at h'
        injection h' with h1 h23
        subst h1
        rw [h23] at hsp
        rw [List.cons_append, ih g b c hsp]

theorem dropWhile_id_of {α : Type} (p : α → Bool) (cs : List α)
    (h : ∀ c ∈ cs, p c = false) : cs.dropWhile p = cs := by
  cases cs with
  | nil => rfl
  | cons c cs' => simp [List.dropWhile_cons, h c (by simp)]

theorem recortar_eq_self (cs : List Char)
    (h : ∀ c ∈ cs, esEspacio c = false) : recortar cs = cs := by
  unfold recortar
  rw [dropWhile_id_of _ _ h,
    dropWhile_id_of _ _ (fun c hc => h c (List.mem_reverse.mp hc)),
    List.reverse_reverse]

theorem partirEnP_no_sep (p : Char → Bool) : ∀ cs,
    (∀ c ∈ cs, p c = false) → partirEnP p cs = [cs] := by
  intro cs
  induction cs with
  | nil => intro h; rfl
  | cons c cs' ih =>
    intro h
    simp only [partirEnP]
    rw [ih (fun c' hc' => h c' (by simp [hc']))]
    simp [h c (by simp)]

theorem sonDigitos_mem (cs : List Char) (h : sonDigitos cs = true) (c : Char)
    (hc : c ∈ cs) : c.isDigit = true := by
  exact List.all_eq_true.mp h c hc

theorem digit_ne (c : Char) (h : c.isDigit = true) :
    c ≠ '-' ∧ c ≠ '+' ∧ c ≠ 'e' ∧ c ≠ 'E' ∧ c ≠ '.' ∧ esEspacio c = false := by
  have h6 : esEspacio c = false := by
    cases hs : esEspacio c with
    | false => rfl
    | true =>
      simp only [esEspacio, Bool.or_eq_true, decide_eq_true_eq] at hs
      rcases hs with ((((h' | h') | h') | h') | h') | h' <;> rw [h'] at h <;>
        exact absurd h (by decide)
  refine ⟨?_, ?_, ?_, ?_, ?_, h6⟩ <;> intro he <;> rw [he] at h <;>
    exact absurd h (by decide)

/-- A string accepted by the `YYYY-MM-DD` date parser is never accepted by
`float()`: it contains a dash in a non-sign position. -/
theorem coerceFecha_none (s : String) (d : Fecha)
    (h : tryParseDate s = some d) :
    tryCoerceFloat (PyVal.str s) = Option.none := by
  unfold tryParseDate at h
  rcases hsp : partirEnP (fun c => decide (c = '-')) s.data with
    _ | ⟨ys, _ | ⟨ms, _ | ⟨ds, _ | ⟨e4, rest⟩⟩⟩⟩ <;> rw [hsp] at h <;>
    try simp at h
  obtain ⟨⟨hLy, hYs, hLm, hMs, hLd, hDs⟩, -⟩ := h
  have hcs : s.data = ys ++ '-' :: (ms ++ '-' :: ds) :=
    partirEnP_tres '-' s.data ys ms ds hsp
  have hdod : ∀ c ∈ s.data, c.isDigit = true ∨ c = '-' := by
    rw [hcs]; intro c hc
    rcases List.mem_append.mp hc with h' | h'
    · exact Or.inl (sonDigitos_mem ys hYs c h')
    · rcases List.mem_cons.mp h' with h'' | h''
      · exact Or.inr h''
      · rcases List.mem_append.mp h'' with h3 | h3
        · exact Or.inl (sonDigitos_mem ms hMs c h3)
        · rcases List.mem_cons.mp h3 with h4 | h4
          · exact Or.inr h4
          · exact Or.inl (sonDigitos_mem ds hDs c h4)
  have hnospace : ∀ c ∈ s.data, esEspacio c = false := by
    intro c hc
    rcases hdod c hc with h' | h'
    · exact (digit_ne c h').2.2.2.2.2
    · rw [h']; decide
  have hrc : recortar s.data = s.data := recortar_eq_self s.data hnospace
  obtain ⟨y0, ys', hys⟩ : ∃ y0 ys', ys = y0 :: ys' := by
    cases ys with
    | nil => simp at hLy
    | cons y0 ys' => exact ⟨y0, ys', rfl⟩
  have hy0 : y0.isDigit = true := sonDigitos_mem ys hYs y0 (by simp [hys])
  have hq : quitarSigno s.data = (false, s.data) := by
    rw [hcs, hys, List.cons_append]
    rw [show quitarSigno (y0 :: (ys' ++ '-' :: (ms ++ '-' :: ds))) =
        if y0 = '-' then (true, ys' ++ '-' :: (ms ++ '-' :: ds))
        else if y0 = '+' then
          (false, (y0 :: (ys' ++ '-' :: (ms ++ '-' :: ds))).tail)
        else (false, y0 :: (ys' ++ '-' :: (ms ++ '-' :: ds))) from rfl]
    rw [if_neg (digit_ne y0 hy0).1, if_neg (digit_ne y0 hy0).2.1]
  have heE : partirEnP (fun c => decide (c = 'e') || decide (c = 'E'))
      s.data = [s.data] := by
    apply partirEnP_no_sep
    intro c hc
    rcases hdod c hc with h' | h'
    · simp [(digit_ne c h').2.2.1, (digit_ne c h').2.2.2.1]
    · rw [h']; decide
  have hdot : partirEnP (fun c => decide (c = '.')) s.data = [s.data] := by
    apply partirEnP_no_sep
    intro c hc
    rcases hdod c hc with h' | h'
    · simp [(digit_ne c h').2.2.2.2.1]
    · rw [h']; decide
  have hnd : sonDigitos s.data = false := by
    cases hsd : sonDigitos s.data with
    | false => rfl
    | true =>
      have : ('-').isDigit = true :=
        sonDigitos_mem s.data hsd '-' (by rw [hcs]; simp)
      exact absurd this (by decide)
  show parseFloatLit s = Option.none
  simp only [parseFloatLit, hrc, hq, heE, parseMantisa, hdot]
  simp [hnd]

/-! ### Claim theorems -/

/-- C2 (counterexample): the claim says a record whose admission-date field
holds an integer is skipped silently with a normal return; on the code the
chained date comparison raises an uncaught `TypeError`, so the call errors
instead of returning a result. -/
theorem C2_contraejemplo :
    calcular_estadisticas_pacientes
      [[("fechaIngreso", PyVal.int 20250110),
        ("tipoEnfermedad", PyVal.str "VIH")]]
      fIni fFin Option.none = Except.error PyError.typeError := rfl

/-- C2 (amended): a record whose admission-date field is absent or `None`
is skipped silently (it contributes to no category and the other records
are processed as if it were not there), but a record whose admission-date
field holds a non-date, non-string, non-`None` value such as an integer is
not skipped: the whole call raises a `TypeError` that propagates. -/
theorem C2_enmendada :
    (∀ (rs1 rs2 : List Registro) (r : Registro) (fi ff : Fecha)
        (cm : Option String),
      RegGet r "fechaIngreso" = PyVal.none →
      calcular_estadisticas_pacientes (rs1 ++ r :: rs2) fi ff cm =
        calcular_estadisticas_pacientes (rs1 ++ rs2) fi ff cm) ∧
    (∀ (regs : List Registro) (r : Registro) (n : Int) (fi ff : Fecha)
        (cm : Option String),
      r ∈ regs → RegGet r "fechaIngreso" = PyVal.int n →
      calcular_estadisticas_pacientes regs fi ff cm =
        Except.error PyError.typeError) := by
  constructor
  · intro rs1 rs2 r fi ff cm h
    exact calcular_quitar fi ff cm r
      (fun m => procesar_skip_fechaNone fi ff cm m r h) rs1 rs2
  · intro regs r n fi ff cm hr h
    exact calcular_error_of regs fi ff cm r hr (by simp [registroMalo, h])

/-- Witness for the amended C2 at concrete inputs. -/
theorem C2_enmendada_testigo :
    calcular_estadisticas_pacientes
        ([] ++ [("fechaIngreso", PyVal.none),
                ("tipoEnfermedad", PyVal.str "X")] :: [])
        fIni fFin Option.none =
      calcular_estadisticas_pacientes ([] ++ []) fIni fFin Option.none ∧
    calcular_estadisticas_pacientes [[("fechaIngreso", PyVal.int 3)]]
        fIni fFin Option.none = Except.error PyError.typeError :=
  ⟨C2_enmendada.1 [] []
      [("fechaIngreso", PyVal.none), ("tipoEnfermedad", PyVal.str "X")]
      fIni fFin Option.none rfl,
   C2_enmendada.2 [[("fechaIngreso", PyVal.int 3)]]
      [("fechaIngreso", PyVal.int 3)] 3 fIni fFin Option.none (by simp) rfl⟩

/-- C5: a record whose admission-date field is a string that does not parse
as `YYYY-MM-DD` is silently excluded: removing it from the input leaves the
result (and the absence of errors) unchanged; in particular `"not-a-date"`
does not parse. -/
theorem C5_fecha_malformada :
    (∀ (rs1 rs2 : List Registro) (r : Registro) (s : String) (fi ff : Fecha)
        (cm : Option String),
      RegGet r "fechaIngreso" = PyVal.str s →
      tryParseDate s = Option.none →
      calcular_estadisticas_pacientes (rs1 ++ r :: rs2) fi ff cm =
        calcular_estadisticas_pacientes (rs1 ++ rs2) fi ff cm) ∧
    tryParseDate "not-a-date" = Option.none := by
  constructor
  · intro rs1 rs2 r s fi ff cm h1 h2
    exact calcular_quitar fi ff cm r
      (fun m => procesar_skip_parse fi ff cm m r s h1 h2) rs1 rs2
  · decide

/-- Witness for C5 at a concrete input. -/
theorem C5_fecha_malformada_testigo :
    calcular_estadisticas_pacientes
        ([] ++ [("fechaIngreso", PyVal.str "not-a-date"),
                ("tipoEnfermedad", PyVal.str "X")] :: [])
        fIni fFin Option.none =
      calcular_estadisticas_pacientes ([] ++ []) fIni fFin Option.none :=
  C5_fecha_malformada.1 [] []
    [("fechaIngreso", PyVal.str "not-a-date"),
     ("tipoEnfermedad", PyVal.str "X")]
    "not-a-date" fIni fFin Option.none rfl (by decide)

/-- C8: a record whose category field is missing, the empty string, or
otherwise falsy is excluded entirely (even with an in-range date): removing
it from the input leaves the result unchanged. -/
theorem C8_categoria_falsa :
    ∀ (rs1 rs2 : List Registro) (r : Registro) (fi ff : Fecha)
      (cm : Option String),
    registroMalo r = false →
    (RegGet r "tipoEnfermedad").truthy = false →
    calcular_estadisticas_pacientes (rs1 ++ r :: rs2) fi ff cm =
      calcular_estadisticas_pacientes (rs1 ++ rs2) fi ff cm := by
  intro rs1 rs2 r fi ff cm hb ht
  exact calcular_quitar fi ff cm r
    (fun m => procesar_skip_tipo fi ff cm m r hb ht) rs1 rs2

/-- Witness for C8: an in-range record with an empty-string category. -/
theorem C8_categoria_falsa_testigo :
    calcular_estadisticas_pacientes
        ([] ++ [("fechaIngreso", PyVal.date ⟨2025, 1, 10⟩),
                ("tipoEnfermedad", PyVal.str "")] :: [])
        fIni fFin Option.none =
      calcular_estadisticas_pacientes ([] ++ []) fIni fFin Option.none :=
  C8_categoria_falsa [] []
    [("fechaIngreso", PyVal.date ⟨2025, 1, 10⟩),
     ("tipoEnfermedad", PyVal.str "")]
    fIni fFin Option.none rfl rfl

/-- C9: every category present in a normally returned result has a count of
at least one (categories are created only when a record is counted), so the
`count == 0` guard before the average division can never fire. -/
theorem C9_cuenta_positiva :
    ∀ (regs : List Registro) (fi ff : Fecha) (cm : Option String)
      (res : List (PyVal × Resumen)) (k : PyVal) (s : Resumen),
    calcular_estadisticas_pacientes regs fi ff cm = Except.ok res →
    buscarL res k = some s →
    1 ≤ s.cantidad := by
  intro regs fi ff cm res k s hok hfind
  have hm := buscar_calcular regs fi ff cm res hok k
  rw [hfind] at hm
  unfold resumenEsperado at hm
  by_cases h0 : cuentaSpec fi ff k regs = 0
  · rw [if_pos h0] at hm; exact absurd hm (by simp)
  · rw [if_neg h0] at hm
    simp only [Option.some.injEq] at hm
    rw [hm]
    exact Nat.one_le_iff_ne_zero.mpr h0

/-- Witness for C9 at a concrete input. -/
theorem C9_cuenta_positiva_testigo :
    1 ≤ (Resumen.mk 1 Option.none).cantidad :=
  C9_cuenta_positiva [regPaciente ⟨2025, 1, 10⟩ "VIH" (PyVal.int 5)]
    fIni fFin Option.none [(PyVal.str "VIH", ⟨1, Option.none⟩)]
    (PyVal.str "VIH") ⟨1, Option.none⟩ rfl rfl

/-- C10: supplying the empty string as the metric field behaves exactly
like omitting it (`if campo_metrica` is falsy for `""`): the whole result,
including the absence of averages, coincides. -/
theorem C10_metrica_vacia :
    ∀ (regs : List Registro) (fi ff : Fecha),
    calcular_estadisticas_pacientes regs fi ff (some "") =
      calcular_estadisticas_pacientes regs fi ff Option.none := by
  intro regs fi ff
  have hac : ∀ (r : Registro) (m : AccMap) (tipo : PyVal),
      acumular (some "") m r tipo = acumular Option.none m r tipo := by
    intro r m tipo
    simp [acumular]
  have hfv : ∀ (r : Registro) (m : AccMap) (d : Fecha),
      procesarFechaValida fi ff (some "") m r d =
        procesarFechaValida fi ff Option.none m r d := by
    intro r m d
    simp only [procesarFechaValida, hac]
  have hpr : ∀ (r : Registro) (m : AccMap),
      procesarRegistro fi ff (some "") m r =
        procesarRegistro fi ff Option.none m r := by
    intro r m
    cases hF : RegGet r "fechaIngreso" with
    | str s =>
      cases hP : tryParseDate s with
      | none => simp [procesarRegistro, hF, hP]
      | some d => simp [procesarRegistro, hF, hP, hfv r m d]
    | date d => simp [procesarRegistro, hF, hfv r m d]
    | none => simp [procesarRegistro, hF]
    | int n => simp [procesarRegistro, hF]
    | float q => simp [procesarRegistro, hF]
  have hb : ∀ (rs : List Registro) (m : AccMap),
      bucle fi ff (some "") rs m = bucle fi ff Option.none rs m := by
    intro rs
    induction rs with
    | nil => intro m; rfl
    | cons r rs ih =>
      intro m
      rw [bucle, bucle, hpr r m]
      cases procesarRegistro fi ff Option.none m r with
      | error e => rfl
      | ok m1 => exact ih m1
  unfold calcular_estadisticas_pacientes
  rw [hb regs []]
  cases bucle fi ff Option.none regs [] with
  | error e => rfl
  | ok m => simp [finalizar, metricaSolicitada]

/-- C1: on a normal return with a (truthy) metric field requested, every
emitted category carries `average = (metric sum over its counted records) /
(full category count)`; a category with no numeric contribution gets
average `0`; and the spec's concrete A/B example evaluates as stated. -/
theorem C1_promedio :
    (∀ (regs : List Registro) (fi ff : Fecha) (c : String)
        (res : List (PyVal × Resumen)) (k : PyVal) (s : Resumen),
      c ≠ "" →
      calcular_estadisticas_pacientes regs fi ff (some c) = Except.ok res →
      buscarL res k = some s →
      s.cantidad = cuentaSpec fi ff k regs ∧
      s.promedio = some (sumaSpec fi ff (some c) k regs / (s.cantidad : ℚ)) ∧
      (sumaSpec fi ff (some c) k regs = 0 → s.promedio = some 0)) ∧
    calcular_estadisticas_pacientes ejemploPromedio fIni fFin (some "valor") =
      Except.ok [(PyVal.str "A", ⟨2, some (11 / 2)⟩),
                 (PyVal.str "B", ⟨1, some 9⟩)] := by
  constructor
  · intro regs fi ff c res k s hc hok hfind
    have hm := buscar_calcular regs fi ff (some c) res hok k
    rw [hfind] at hm
    unfold resumenEsperado at hm
    by_cases h0 : cuentaSpec fi ff k regs = 0
    · rw [if_pos h0] at hm; exact absurd hm (by simp)
    · rw [if_neg h0] at hm
      have hms : metricaSolicitada (some c) = true := by
        simp [metricaSolicitada, hc]
      simp only [hms, if_true, Option.some.injEq] at hm
      subst hm
      refine ⟨rfl, rfl, ?_⟩
      intro hz
      show some (sumaSpec fi ff (some c) k regs /
        (cuentaSpec fi ff k regs : ℚ)) = some 0
      rw [hz, zero_div]
  · have h5 : tryCoerceFloat (PyVal.int 5) = some 5 := by norm_num [tryCoerceFloat]
    have h6 : tryCoerceFloat (PyVal.int 6) = some 6 := by norm_num [tryCoerceFloat]
    have h9 : tryCoerceFloat (PyVal.int 9) = some 9 := by norm_num [tryCoerceFloat]
    simp [ejemploPromedio, regPaciente, fIni, fFin,
      calcular_estadisticas_pacientes, bucle, procesarRegistro,
      procesarFechaValida, acumular, getAcc, buscarL, ponerL, RegGet,
      tieneClave, h5, h6, h9, finalizar, metricaSolicitada, PyVal.truthy,
      Fecha.leB]
    norm_num

/-- Witness for C1's general part at the concrete A/B example. -/
theorem C1_promedio_testigo :
    (Resumen.mk 2 (some (11 / 2))).cantidad =
      cuentaSpec fIni fFin (PyVal.str "A") ejemploPromedio ∧
    (Resumen.mk 2 (some (11 / 2))).promedio =
      some (sumaSpec fIni fFin (some "valor") (PyVal.str "A") ejemploPromedio /
        ((Resumen.mk 2 (some (11 / 2))).cantidad : ℚ)) ∧
    (sumaSpec fIni fFin (some "valor") (PyVal.str "A") ejemploPromedio = 0 →
      (Resumen.mk 2 (some (11 / 2))).promedio = some 0) :=
  C1_promedio.1 ejemploPromedio fIni fFin "valor"
    [(PyVal.str "A", ⟨2, some (11 / 2)⟩), (PyVal.str "B", ⟨1, some 9⟩)]
    (PyVal.str "A") ⟨2, some (11 / 2)⟩ (by decide) C1_promedio.2 rfl

/-- C3: with `start ≤ end`, a record whose admission date equals `start` or
`end` (and whose category is truthy) is counted: the category appears in
the output with a count one higher than the other records give it; a record
whose admission date is strictly before `start` or strictly after `end`
contributes nothing: removing it leaves the whole result unchanged. -/
theorem C3_rango :
    (∀ (fi ff : Fecha) (r : Registro) (d : Fecha) (rs1 rs2 : List Registro)
        (cm : Option String) (res : List (PyVal × Resumen)),
      Fecha.leB fi ff = true →
      fechaNormalizada r = some d →
      (d = fi ∨ d = ff) →
      (RegGet r "tipoEnfermedad").truthy = true →
      calcular_estadisticas_pacientes (rs1 ++ r :: rs2) fi ff cm =
        Except.ok res →
      ∃ s, buscarL res (RegGet r "tipoEnfermedad") = some s ∧
        s.cantidad =
          cuentaSpec fi ff (RegGet r "tipoEnfermedad") (rs1 ++ rs2) + 1) ∧
    (∀ (fi ff : Fecha) (r : Registro) (d : Fecha) (rs1 rs2 : List Registro)
        (cm : Option String),
      fechaNormalizada r = some d →
      (Fecha.leB fi d = false ∨ Fecha.leB d ff = false) →
      calcular_estadisticas_pacientes (rs1 ++ r :: rs2) fi ff cm =
        calcular_estadisticas_pacientes (rs1 ++ rs2) fi ff cm) := by
  constructor
  · intro fi ff r d rs1 rs2 cm res hle hd hdeq ht hok
    have h1 : Fecha.leB fi d = true := by
      rcases hdeq with h | h
      · rw [h]; exact Fecha.leB_refl fi
      · rw [h]; exact hle
    have h2 : Fecha.leB d ff = true := by
      rcases hdeq with h | h
      · rw [h]; exact hle
      · rw [h]; exact Fecha.leB_refl ff
    have hcont : contadoB fi ff (RegGet r "tipoEnfermedad") r = true := by
      simp [contadoB, hd, h1, h2, ht]
    have hcount : cuentaSpec fi ff (RegGet r "tipoEnfermedad")
        (rs1 ++ r :: rs2) =
        cuentaSpec fi ff (RegGet r "tipoEnfermedad") (rs1 ++ rs2) + 1 := by
      rw [cuentaSpec_append, cuentaSpec_cons, cuentaSpec_append,
        if_pos hcont]
      omega
    have hm := buscar_calcular _ fi ff cm res hok (RegGet r "tipoEnfermedad")
    rw [hm]
    unfold resumenEsperado
    rw [if_neg (by rw [hcount]; omega)]
    exact ⟨_, rfl, hcount⟩
  · intro fi ff r d rs1 rs2 cm hd hout
    apply calcular_quitar
    intro m
    apply procesar_skip_rango fi ff cm m r d hd
    rcases hout with h | h <;> simp [h]

/-- Witness for C3 at concrete inputs: a record dated exactly on the range
start is counted; one dated after the range end contributes nothing. -/
theorem C3_rango_testigo :
    (∃ s, buscarL [(PyVal.str "VIH", Resumen.mk 1 Option.none)]
        (RegGet (regPaciente ⟨2025, 1, 10⟩ "VIH" (PyVal.int 5))
          "tipoEnfermedad") = some s ∧
      s.cantidad = cuentaSpec ⟨2025, 1, 10⟩ ⟨2025, 2, 4⟩
        (RegGet (regPaciente ⟨2025, 1, 10⟩ "VIH" (PyVal.int 5))
          "tipoEnfermedad") ([] ++ []) + 1) ∧
    calcular_estadisticas_pacientes
        ([] ++ regPaciente ⟨2025, 2, 5⟩ "HCV" (PyVal.int 2) :: [])
        ⟨2025, 1, 10⟩ ⟨2025, 2, 4⟩ Option.none =
      calcular_estadisticas_pacientes ([] ++ []) ⟨2025, 1, 10⟩ ⟨2025, 2, 4⟩
        Option.none :=
  ⟨C3_rango.1 ⟨2025, 1, 10⟩ ⟨2025, 2, 4⟩
      (regPaciente ⟨2025, 1, 10⟩ "VIH" (PyVal.int 5)) ⟨2025, 1, 10⟩ [] []
      Option.none [(PyVal.str "VIH", Resumen.mk 1 Option.none)]
      (by decide) rfl (Or.inl rfl) rfl rfl,
   C3_rango.2 ⟨2025, 1, 10⟩ ⟨2025, 2, 4⟩
      (regPaciente ⟨2025, 2, 5⟩ "HCV" (PyVal.int 2)) ⟨2025, 2, 5⟩ [] []
      Option.none rfl (Or.inr (by decide))⟩

/-- C4: an in-range record with a truthy category that has the requested
metric field as a key but a non-coercible value still increments its
category's count by one while leaving the metric sum unchanged, and (when
the remaining records are well-typed) no exception propagates; the spec's
[valid=5, invalid="N/A"] example yields count 2 and average 5/2. -/
theorem C4_metrica_no_numerica :
    (∀ (fi ff : Fecha) (r : Registro) (d : Fecha) (c : String)
        (rs1 rs2 : List Registro),
      fechaNormalizada r = some d →
      (Fecha.leB fi d && Fecha.leB d ff) = true →
      (RegGet r "tipoEnfermedad").truthy = true →
      c ≠ "" →
      tieneClave r c = true →
      tryCoerceFloat (RegGet r c) = Option.none →
      (∀ r' ∈ rs1 ++ rs2, registroMalo r' = false) →
      ∃ res, calcular_estadisticas_pacientes (rs1 ++ r :: rs2) fi ff
          (some c) = Except.ok res ∧
        ∃ s, buscarL res (RegGet r "tipoEnfermedad") = some s ∧
          s.cantidad =
            cuentaSpec fi ff (RegGet r "tipoEnfermedad") (rs1 ++ rs2) + 1 ∧
          s.promedio = some
            (sumaSpec fi ff (some c) (RegGet r "tipoEnfermedad") (rs1 ++ rs2) /
              ((cuentaSpec fi ff (RegGet r "tipoEnfermedad") (rs1 ++ rs2) + 1 :
                Nat) : ℚ))) ∧
    calcular_estadisticas_pacientes ejemploNoNumerico fIni fFin
        (some "valor") =
      Except.ok [(PyVal.str "A", ⟨2, some (5 / 2)⟩)] := by
  constructor
  · intro fi ff r d c rs1 rs2 hd hR ht hc hk hcoerce hclean
    have hrb : registroMalo r = false := by
      cases hF : RegGet r "fechaIngreso" <;> simp [registroMalo, hF] <;>
        simp [fechaNormalizada, hF] at hd
    have hall : ∀ r' ∈ rs1 ++ r :: rs2, registroMalo r' = false := by
      intro r' hr'
      rcases List.mem_append.mp hr' with h' | h'
      · exact hclean r' (List.mem_append.mpr (Or.inl h'))
      · rcases List.mem_cons.mp h' with h'' | h''
        · rw [h'']; exact hrb
        · exact hclean r' (List.mem_append.mpr (Or.inr h''))
    obtain ⟨res, hres⟩ := calcular_ok_of _ fi ff (some c) hall
    refine ⟨res, hres, ?_⟩
    have hRp : Fecha.leB fi d = true ∧ Fecha.leB d ff = true := by
      simpa using hR
    obtain ⟨hR1, hR2⟩ := hRp
    have hcont : contadoB fi ff (RegGet r "tipoEnfermedad") r = true := by
      simp [contadoB, hd, hR1, hR2, ht]
    have hcuenta : cuentaSpec fi ff (RegGet r "tipoEnfermedad")
        (rs1 ++ r :: rs2) =
        cuentaSpec fi ff (RegGet r "tipoEnfermedad") (rs1 ++ rs2) + 1 := by
      rw [cuentaSpec_append, cuentaSpec_cons, cuentaSpec_append,
        if_pos hcont]
      omega
    have hcero : contribucion (some c) r = 0 := by
      simp [contribucion, hc, hk, hcoerce]
    have hsuma : sumaSpec fi ff (some c) (RegGet r "tipoEnfermedad")
        (rs1 ++ r :: rs2) =
        sumaSpec fi ff (some c) (RegGet r "tipoEnfermedad") (rs1 ++ rs2) := by
      rw [sumaSpec_append, sumaSpec_cons, sumaSpec_append, if_pos hcont,
        hcero]
      ring
    have hm := buscar_calcular _ fi ff (some c) res hres
      (RegGet r "tipoEnfermedad")
    rw [hm]
    unfold resumenEsperado
    rw [if_neg (by rw [hcuenta]; omega)]
    refine ⟨_, rfl, hcuenta, ?_⟩
    have hms : metricaSolicitada (some c) = true := by
      simp [metricaSolicitada, hc]
    show (if metricaSolicitada (some c) = true then
        some (sumaSpec fi ff (some c) (RegGet r "tipoEnfermedad")
            (rs1 ++ r :: rs2) /
          (cuentaSpec fi ff (RegGet r "tipoEnfermedad") (rs1 ++ r :: rs2) : ℚ))
      else Option.none) = _
    rw [if_pos hms, hcuenta, hsuma]
  · have h5 : tryCoerceFloat (PyVal.int 5) = some 5 := by
      norm_num [tryCoerceFloat]
    have hNA : tryCoerceFloat (PyVal.str "N/A") = Option.none := by decide
    simp [ejemploNoNumerico, regPaciente, fIni, fFin,
      calcular_estadisticas_pacientes, bucle, procesarRegistro,
      procesarFechaValida, acumular, getAcc, buscarL, ponerL, RegGet,
      tieneClave, h5, hNA, finalizar, metricaSolicitada, PyVal.truthy,
      Fecha.leB]

/-- Witness for C4's general part at the concrete "N/A" example. -/
theorem C4_metrica_no_numerica_testigo :
    ∃ res, calcular_estadisticas_pacientes
        ([regPaciente ⟨2025, 1, 10⟩ "A" (PyVal.int 5)] ++
          regPaciente ⟨2025, 1, 15⟩ "A" (PyVal.str "N/A") :: [])
        fIni fFin (some "valor") = Except.ok res ∧
      ∃ s, buscarL res
          (RegGet (regPaciente ⟨2025, 1, 15⟩ "A" (PyVal.str "N/A"))
            "tipoEnfermedad") = some s ∧
        s.cantidad = cuentaSpec fIni fFin
          (RegGet (regPaciente ⟨2025, 1, 15⟩ "A" (PyVal.str "N/A"))
            "tipoEnfermedad")
          ([regPaciente ⟨2025, 1, 10⟩ "A" (PyVal.int 5)] ++ []) + 1 ∧
        s.promedio = some
          (sumaSpec fIni fFin (some "valor")
              (RegGet (regPaciente ⟨2025, 1, 15⟩ "A" (PyVal.str "N/A"))
                "tipoEnfermedad")
              ([regPaciente ⟨2025, 1, 10⟩ "A" (PyVal.int 5)] ++ []) /
            ((cuentaSpec fIni fFin
                (RegGet (regPaciente ⟨2025, 1, 15⟩ "A" (PyVal.str "N/A"))
                  "tipoEnfermedad")
                ([regPaciente ⟨2025, 1, 10⟩ "A" (PyVal.int 5)] ++ []) + 1 :
              Nat) : ℚ)) :=
  C4_metrica_no_numerica.1 fIni fFin
    (regPaciente ⟨2025, 1, 15⟩ "A" (PyVal.str "N/A")) ⟨2025, 1, 15⟩ "valor"
    [regPaciente ⟨2025, 1, 10⟩ "A" (PyVal.int 5)] [] rfl (by decide) rfl
    (by decide) rfl (by decide)
    (by intro r' hr'; simp at hr'; rw [hr']; rfl)

/-- C6: replacing a record's admission-date string in `YYYY-MM-DD` format
by the native date value it denotes leaves the result of the aggregation
unchanged, for every record list, range and metric field. -/
theorem C6_formato_fecha :
    ∀ (rs1 rs2 : List Registro) (r : Registro) (s : String) (d : Fecha)
      (fi ff : Fecha) (cm : Option String),
    RegGet r "fechaIngreso" = PyVal.str s →
    tryParseDate s = some d →
    calcular_estadisticas_pacientes (rs1 ++ r :: rs2) fi ff cm =
      calcular_estadisticas_pacientes
        (rs1 ++ ponerL r "fechaIngreso" (PyVal.date d) :: rs2) fi ff cm := by
  intro rs1 rs2 r s d fi ff cm h1 h2
  apply calcular_congr
  intro m
  have hr'F : RegGet (ponerL r "fechaIngreso" (PyVal.date d)) "fechaIngreso" =
      PyVal.date d := by
    simp [RegGet, buscarL_ponerL_self]
  have hT : RegGet (ponerL r "fechaIngreso" (PyVal.date d)) "tipoEnfermedad" =
      RegGet r "tipoEnfermedad" := by
    simp only [RegGet]
    rw [buscarL_ponerL_ne _ _ _ _ (by decide)]
  simp only [procesarRegistro, h1, h2, hr'F]
  congr 1
  unfold procesarFechaValida
  rw [hT]
  by_cases hR : (Fecha.leB fi d && Fecha.leB d ff) = true
  case neg => simp [hR]
  simp only [hR, if_true]
  by_cases hTr : (RegGet r "tipoEnfermedad").truthy = true
  case neg => simp [hTr]
  simp only [hTr, if_true]
  unfold acumular
  cases cm with
  | none => rfl
  | some c =>
    by_cases hce : c = ""
    · simp [hce]
    · by_cases hcf : c = "fechaIngreso"
      · subst hcf
        have hb : buscarL r "fechaIngreso" = some (PyVal.str s) := by
          cases hbb : buscarL r "fechaIngreso" with
          | none => rw [RegGet, hbb] at h1; simp at h1
          | some v => rw [RegGet, hbb] at h1; simp at h1; rw [h1]
        have htc : tieneClave r "fechaIngreso" = true := by
          simp [tieneClave, hb]
        have htc' : tieneClave (ponerL r "fechaIngreso" (PyVal.date d))
            "fechaIngreso" = true := by
          simp [tieneClave, buscarL_ponerL_self]
        have hco : tryCoerceFloat (RegGet r "fechaIngreso") =
            Option.none := by
          rw [h1]; exact coerceFecha_none s d h2
        have hco' : tryCoerceFloat
            (RegGet (ponerL r "fechaIngreso" (PyVal.date d)) "fechaIngreso") =
            Option.none := by
          rw [hr'F]
          rfl
        simp [hce, htc, htc', hco, hco']
      · have hk2 : tieneClave (ponerL r "fechaIngreso" (PyVal.date d)) c =
            tieneClave r c := by
          simp only [tieneClave]
          rw [buscarL_ponerL_ne _ _ _ _ hcf]
        have hg2 : RegGet (ponerL r "fechaIngreso" (PyVal.date d)) c =
            RegGet r c := by
          simp only [RegGet]
          rw [buscarL_ponerL_ne _ _ _ _ hcf]
        simp [hce, hk2, hg2]

/-- Witness for C6 at a concrete input. -/
theorem C6_formato_fecha_testigo :
    calcular_estadisticas_pacientes
        ([] ++ [("fechaIngreso", PyVal.str "2025-01-10"),
                ("tipoEnfermedad", PyVal.str "X")] :: [])
        fIni fFin Option.none =
      calcular_estadisticas_pacientes
        ([] ++ ponerL [("fechaIngreso", PyVal.str "2025-01-10"),
                       ("tipoEnfermedad", PyVal.str "X")]
            "fechaIngreso" (PyVal.date ⟨2025, 1, 10⟩) :: [])
        fIni fFin Option.none :=
  C6_formato_fecha [] []
    [("fechaIngreso", PyVal.str "2025-01-10"),
     ("tipoEnfermedad", PyVal.str "X")]
    "2025-01-10" ⟨2025, 1, 10⟩ fIni fFin Option.none rfl (by decide)

/-- C7: aggregation is invariant under permutation of the record list:
looking any category up in the (possibly erroneous) outcome gives the same
answer for a permuted input. -/
theorem C7_permutacion :
    ∀ (regs regs' : List Registro) (fi ff : Fecha) (cm : Option String)
      (k : PyVal),
    List.Perm regs regs' →
    Except.map (fun res => buscarL res k)
        (calcular_estadisticas_pacientes regs fi ff cm) =
      Except.map (fun res => buscarL res k)
        (calcular_estadisticas_pacientes regs' fi ff cm) := by
  intro regs regs' fi ff cm k hp
  by_cases hB : ∀ r ∈ regs, registroMalo r = false
  · have hB' : ∀ r ∈ regs', registroMalo r = false := fun r hr =>
      hB r (hp.mem_iff.mpr hr)
    obtain ⟨res, hres⟩ := calcular_ok_of regs fi ff cm hB
    obtain ⟨res', hres'⟩ := calcular_ok_of regs' fi ff cm hB'
    rw [hres, hres']
    simp only [Except.map]
    congr 1
    rw [buscar_calcular regs fi ff cm res hres k,
      buscar_calcular regs' fi ff cm res' hres' k]
    have hcu : cuentaSpec fi ff k regs = cuentaSpec fi ff k regs' :=
      (hp.filter (contadoB fi ff k)).length_eq
    have hsu : sumaSpec fi ff cm k regs = sumaSpec fi ff cm k regs' :=
      ((hp.filter (contadoB fi ff k)).map (contribucion cm)).sum_eq
    simp only [resumenEsperado, hcu, hsu]
  · have hBex : ∃ r ∈ regs, registroMalo r = true := by
      push_neg at hB
      obtain ⟨r, hr, hb⟩ := hB
      exact ⟨r, hr, by simpa using hb⟩
    obtain ⟨r, hr, hb⟩ := hBex
    rw [calcular_error_of regs fi ff cm r hr hb,
      calcular_error_of regs' fi ff cm r (hp.mem_iff.mp hr) hb]

/-- Witness for C7: swapping two records leaves the lookup unchanged. -/
theorem C7_permutacion_testigo :
    Except.map (fun res => buscarL res (PyVal.str "A"))
        (calcular_estadisticas_pacientes
          [regPaciente ⟨2025, 1, 10⟩ "A" (PyVal.int 5),
           regPaciente ⟨2025, 1, 20⟩ "B" (PyVal.int 9)]
          fIni fFin (some "valor")) =
      Except.map (fun res => buscarL res (PyVal.str "A"))
        (calcular_estadisticas_pacientes
          [regPaciente ⟨2025, 1, 20⟩ "B" (PyVal.int 9),
           regPaciente ⟨2025, 1, 10⟩ "A" (PyVal.int 5)]
          fIni fFin (some "valor")) :=
  C7_permutacion
    [regPaciente ⟨2025, 1, 10⟩ "A" (PyVal.int 5),
     regPaciente ⟨2025, 1, 20⟩ "B" (PyVal.int 9)]
    [regPaciente ⟨2025, 1, 20⟩ "B" (PyVal.int 9),
     regPaciente ⟨2025, 1, 10⟩ "A" (PyVal.int 5)]
    fIni fFin (some "valor") (PyVal.str "A")
    (List.Perm.swap (regPaciente ⟨2025, 1, 20⟩ "B" (PyVal.int 9))
      (regPaciente ⟨2025, 1, 10⟩ "A" (PyVal.int 5)) [])
